import Mathlib

/-!
# Verification of the base-pair / hydrogen-bond matching core of `scripts/app.py`

This file gives a shallow embedding of the data model and of the matching
functions of the repository's single source file `scripts/app.py`
(a pandas/streamlit application):

* `has_hbond`          — the source's `has_hbond(df, hbond)`;
* `find_bp_interest`   — the source's `find_bp_interest(df, bp, hbonds)`;
* `buildDescriptors`   — the `combined_hbond_*` column synthesis block inside
                         the source's `load_data_from_gdrive`.

A pandas `DataFrame` is modelled as an index list, a column-name list and a
list of rows; a row is a finite map from column names to cells.  A cell is
either a present string value or a missing entry, and a missing entry keeps
the flavor `pd.read_parquet` gives it — Python `None` in an object/string
column, float `NaN` in a float column — because `astype(str)` renders the
two differently (`"None"` vs `"nan"`).
Python string primitives used by the source (`str.split`, `str.join`,
`str.startswith`, substring membership, lexicographic comparison used by
`sorted`) are modelled by structurally recursive functions on character lists
so that all definitions evaluate by `decide`.

Pandas' `Series.str.contains` is a regular-expression search by default; on
the patterns this program feeds it (atom-pair labels made of letters, digits,
apostrophes and hyphens, none of which are regex metacharacters) it coincides
with plain substring containment, which is what `strContains` models.
-/

/-- A cell of the observation table.  A present value is carried as the
string `astype(str)` renders for it.  A missing entry keeps the flavor
pandas gives it after `pd.read_parquet`: a missing entry of an
object/string column (the atom columns) is Python `None`, a missing entry
of a float column (the distance columns) is float `NaN` — the two render
differently under `astype(str)` and both count as NA for `str.contains`
and `isin`. -/
inductive Cell where
  | str (s : String)
  | pyNone
  | nan
deriving DecidableEq

/-- A row of the observation table: a finite map from column name to cell,
represented as an association list; lookup returns the first binding. -/
abbrev Row := List (String × Cell)

/-- Look a column up in a row.  A key that is absent behaves like a missing
cell (in the source every lookup is guarded by column presence on the
frame, so this collapse is never exercised on well-formed frames). -/
def rowGet (r : Row) (c : String) : Cell :=
  match r.find? (fun p => p.1 == c) with
  | some p => p.2
  | none => Cell.pyNone

/-- Write a cell into a row.  Since `rowGet` returns the first binding,
consing the new binding in front realises a functional update. -/
def rowSet (r : Row) (c : String) (v : Cell) : Row :=
  (c, v) :: r

/-- A pandas `DataFrame`: an index (pandas row labels; a fresh frame has the
`RangeIndex` `0, 1, …`), an ordered list of column names, and the rows.
Well-formed frames have as many index labels as rows. -/
@[ext]
structure DataFrame where
  idx : List Nat
  cols : List String
  rows : List Row
deriving DecidableEq

/-- The values of one column, row by row (pandas `df[c]`). -/
def dfGetCol (df : DataFrame) (c : String) : List Cell :=
  df.rows.map (fun r => rowGet r c)

/-- Column assignment `df[c] = vals` (pandas semantics: an existing column is
overwritten in place, a new column is appended at the end). -/
def dfSetCol (df : DataFrame) (c : String) (vals : List Cell) : DataFrame :=
  { df with
    cols := if c ∈ df.cols then df.cols else df.cols ++ [c]
    rows := List.zipWith (fun r v => rowSet r c v) df.rows vals }

/-- Keep the elements of `l` whose companion entry in `mask` is `true`
(pandas boolean selection, applied to the index and to the rows). -/
def keepTrue {α : Type} (l : List α) (mask : List Bool) : List α :=
  ((l.zip mask).filter (fun p => p.2)).map Prod.fst

/-- Boolean row selection `df[mask]`: both the rows and their original index
labels survive the selection (pandas does *not* reset the index here). -/
def dfFilter (df : DataFrame) (mask : List Bool) : DataFrame :=
  { idx := keepTrue df.idx mask
    cols := df.cols
    rows := keepTrue df.rows mask }

/-- `df.head(n)` (used by the app to cap on-screen rendering at 1000 rows). -/
def dfHead (df : DataFrame) (n : Nat) : DataFrame :=
  { idx := df.idx.take n, cols := df.cols, rows := df.rows.take n }

/-!
## Python string primitives used by the source
-/

/-- Python `s.split(sep)` for a single-character separator, on character
lists: `"".split("-") = [""]`, `"a--b".split("-") = ["a","","b"]`. -/
def splitOnChar (c : Char) : List Char → List (List Char)
  | [] => [[]]
  | x :: xs =>
    match splitOnChar c xs with
    | [] => [[]]
    | y :: ys => if x = c then [] :: y :: ys else (x :: y) :: ys

/-- Python `s.split(sep)` for a single-character separator. -/
def pySplit (sep : Char) (s : String) : List String :=
  (splitOnChar sep s.toList).map (fun l => String.mk l)

/-- Python `sep.join(parts)`. -/
def pyJoin (sep : String) : List String → String
  | [] => ""
  | [x] => x
  | x :: y :: xs => x ++ sep ++ pyJoin sep (y :: xs)

/-- Python `s.startswith(p)`. -/
def pyStartswith (s p : String) : Bool :=
  p.toList.isPrefixOf s.toList

/-- Strict lexicographic comparison of character lists by code point, the
order Python uses to compare strings. -/
def charListLt : List Char → List Char → Bool
  | [], [] => false
  | [], _ :: _ => true
  | _ :: _, [] => false
  | x :: xs, y :: ys => if x = y then charListLt xs ys else decide (x < y)

/-- Python `a <= b` on strings. -/
def pyStrLe (a b : String) : Bool :=
  a == b || charListLt a.toList b.toList

/-- Python `sorted([a, b])` for a two-element list, as an ordered pair. -/
def sorted2 (a b : String) : String × String :=
  if pyStrLe a b then (a, b) else (b, a)

/-- Substring containment on character lists (Python `pat in s`). -/
def containsSub (pat : List Char) : List Char → Bool
  | [] => pat.isEmpty
  | x :: xs => pat.isPrefixOf (x :: xs) || containsSub pat xs

/-- Substring containment on strings; models `Series.str.contains` on the
regex-metacharacter-free patterns this program uses (see the header). -/
def strContains (s pat : String) : Bool :=
  containsSub pat.toList s.toList

/-- Pandas `astype(str)` on one cell: `str()` of the value — a missing
entry of an object/string column (Python `None`) is rendered as the
literal string `"None"`, a missing entry of a float column (float `NaN`)
as the literal string `"nan"`. -/
def astypeStr (v : Cell) : String :=
  match v with
  | .str s => s
  | .pyNone => "None"
  | .nan => "nan"

/-!
## `has_hbond` (source lines 32–42)

```python
def has_hbond(df, hbond):
    variants = [hbond, "-".join(hbond.split("-")[::-1])]
    mask = False
    for i in range(1, 11):
        col = f"combined_hbond_{i}"
        if col in df.columns:
            for v in variants:
                mask |= df[col].str.contains(v, na=False)
    return mask
```
-/

/-- `"-".join(hbond.split("-")[::-1])`: the left-right-swapped variant of a
query term. -/
def swapJoin (hbond : String) : String :=
  pyJoin "-" (pySplit '-' hbond).reverse

/-- The column names `f"combined_hbond_{i}"` for `i in range(1, 11)`. -/
def combinedCols : List String :=
  ["combined_hbond_1", "combined_hbond_2", "combined_hbond_3",
   "combined_hbond_4", "combined_hbond_5", "combined_hbond_6",
   "combined_hbond_7", "combined_hbond_8", "combined_hbond_9",
   "combined_hbond_10"]

/-- One cell of `df[col].str.contains(v, na=False)`: a missing cell of
either flavor is NA, hence non-matching (`na=False`); a present cell is
searched for `v`. -/
def cellContains (cell : Cell) (v : String) : Bool :=
  match cell with
  | .str s => strContains s v
  | _ => false

/-- The series `df[col].str.contains(v, na=False)`. -/
def strColContains (df : DataFrame) (col v : String) : List Bool :=
  df.rows.map (fun r => cellContains (rowGet r col) v)

/-- Element-wise `|=` of two boolean series. -/
def seriesOr (m₁ m₂ : List Bool) : List Bool :=
  List.zipWith or m₁ m₂

/-- Element-wise `&=` of two boolean series. -/
def seriesAnd (m₁ m₂ : List Bool) : List Bool :=
  List.zipWith and m₁ m₂

/-- The source's `has_hbond(df, hbond)`: starting from the all-false mask
(Python's scalar `False`, broadcast over the frame's rows), OR in the
containment series of each present `combined_hbond_i` column for the term
and for its swapped variant. -/
def has_hbond (df : DataFrame) (hbond : String) : List Bool :=
  let variants := [hbond, swapJoin hbond]
  combinedCols.foldl
    (fun mask col =>
      if df.cols.contains col then
        variants.foldl (fun m v => seriesOr m (strColContains df col v)) mask
      else mask)
    (List.replicate df.rows.length false)

/-!
## `find_bp_interest` (source lines 45–62)

```python
def find_bp_interest(df, bp, hbonds):
    bp_split = bp.split('-')
    if bp_split[0] != bp_split[1]:
        bps = [bp, "-".join(bp_split[::-1])]
    else:
        bps = [bp]
    mask = df["base_pair"].isin(bps)
    for hbond in hbonds:
        mask &= has_hbond(df, hbond)
    results = df[mask]
    return results
```
-/

/-- The acceptable-label list `bps` built by `find_bp_interest`.  `none`
models the `IndexError` raised by `bp_split[1]` when the split has fewer
than two parts (`bp` contains no `"-"`). -/
def bpVariants (bp : String) : Option (List String) :=
  match pySplit '-' bp with
  | a :: b :: rest =>
      some (if a ≠ b then [bp, pyJoin "-" ((a :: b :: rest).reverse)] else [bp])
  | _ => none

/-- One cell of `df["base_pair"].isin(bps)`: a missing cell of either
flavor is never a member of a list of strings. -/
def cellIsin (cell : Cell) (vals : List String) : Bool :=
  match cell with
  | .str s => vals.contains s
  | _ => false

/-- The series `df[col].isin(vals)`. -/
def dfIsin (df : DataFrame) (col : String) (vals : List String) : List Bool :=
  df.rows.map (fun r => cellIsin (rowGet r col) vals)

/-- The source's `find_bp_interest(df, bp, hbonds)`, state-threaded: the
first component is the input frame as it stands after the call (the body
never assigns into `df`, it only reads and builds masks), the second is the
returned value — `Except.error` models the `IndexError` escaping the call. -/
def find_bp_interest_st (df : DataFrame) (bp : String) (hbonds : List String) :
    DataFrame × Except String DataFrame :=
  match bpVariants bp with
  | some bps =>
      let mask0 := dfIsin df "base_pair" bps
      let mask := hbonds.foldl (fun m h => seriesAnd m (has_hbond df h)) mask0
      (df, Except.ok (dfFilter df mask))
  | none => (df, Except.error "IndexError: list index out of range")

/-- The value returned by `find_bp_interest` (or the error it raises). -/
def find_bp_interest (df : DataFrame) (bp : String) (hbonds : List String) :
    Except String DataFrame :=
  (find_bp_interest_st df bp hbonds).2

/-!
## `combined_hbond_*` synthesis inside `load_data_from_gdrive`
(source lines 150–165)

```python
    suffix_groups = defaultdict(list)
    for col in df.columns:
        suffix = "_".join(col.split("_")[-2:])
        if suffix.startswith("hbond"):
            suffix_groups[suffix].append(col)

    for suffix, cols in suffix_groups.items():
        if len(cols) == 2:
            atom_col, dist_col = sorted(cols)
            df[f"combined_{suffix}"] = (
                df[atom_col].astype(str) + "_" +
                df[dist_col].astype(str)
            )
```
-/

/-- `"_".join(col.split("_")[-2:])`: the candidate suffix of a column name
(its last two underscore-separated components; the whole name when it has
fewer than two components). -/
def colSuffix (c : String) : String :=
  let parts := pySplit '_' c
  pyJoin "_" (parts.drop (parts.length - 2))

/-- Deduplicate keeping first occurrences (`dict` key insertion order). -/
def dedupFirstAux (seen : List String) : List String → List String
  | [] => []
  | c :: cs =>
      if seen.contains c then dedupFirstAux seen cs
      else c :: dedupFirstAux (c :: seen) cs

/-- Deduplicate keeping first occurrences. -/
def dedupFirst (l : List String) : List String :=
  dedupFirstAux [] l

/-- The keys of `suffix_groups` in insertion order: every distinct suffix
of a column name that starts with `"hbond"` (*any* such suffix — the source
imposes no `1..10` range on the trailing index). -/
def hbondSuffixes (cols : List String) : List String :=
  dedupFirst ((cols.map colSuffix).filter (fun s => pyStartswith s "hbond"))

/-- The member list of `suffix_groups[suf]`, in column order. -/
def suffixGroup (cols : List String) (suf : String) : List String :=
  cols.filter (fun c => colSuffix c == suf)

/-- One iteration of the descriptor-synthesis loop: if `suf`'s group
(computed from the pre-loop column list `oc`) has exactly two columns,
assign `df["combined_" + suf]` the row-wise concatenation
`atom.astype(str) + "_" + dist.astype(str)` of the sorted pair; every other
group size is skipped silently. -/
def combineStep (oc : List String) (d : DataFrame) (suf : String) : DataFrame :=
  match suffixGroup oc suf with
  | [c₁, c₂] =>
      dfSetCol d ("combined_" ++ suf)
        (d.rows.map (fun r =>
          Cell.str (astypeStr (rowGet r (sorted2 c₁ c₂).1) ++ "_" ++
                astypeStr (rowGet r (sorted2 c₁ c₂).2))))
  | _ => d

/-- The whole descriptor-synthesis loop over the suffix groups in key
insertion order.  The groups are computed from the column list as it was
before the loop, the values from the frame as it stands when the suffix is
processed (exactly as in the source). -/
def buildDescriptors (df : DataFrame) : DataFrame :=
  (hbondSuffixes df.cols).foldl (combineStep df.cols) df

/-- The header line of `results.to_csv(index=False)`: the column names,
comma-separated (the downloaded CSV artifact starts with this line). -/
def csvHeader (df : DataFrame) : String :=
  pyJoin "," df.cols

instance : DecidableEq (Except String DataFrame) := fun a b =>
  match a, b with
  | .ok x, .ok y => decidable_of_iff (x = y) (by simp)
  | .error x, .error y => decidable_of_iff (x = y) (by simp)
  | .ok _, .error _ => .isFalse (by simp)
  | .error _, .ok _ => .isFalse (by simp)

/-!
## Basic facts about the modelled primitives
-/

theorem zipWith_map_map {α β γ δ : Type} (g : β → γ → δ) (p : α → β) (q : α → γ)
    (l : List α) :
    List.zipWith g (l.map p) (l.map q) = l.map (fun a => g (p a) (q a)) := by
  induction l with
  | nil => rfl
  | cons x xs ih => simp [ih]

theorem replicate_length_eq_map {α β : Type} (l : List α) (b : β) :
    List.replicate l.length b = l.map (fun _ => b) := by
  induction l with
  | nil => rfl
  | cons x xs ih => rw [List.length_cons, List.replicate_succ, ih, List.map_cons]

theorem keepTrue_nil {α : Type} (m : List Bool) : keepTrue ([] : List α) m = [] := by
  simp [keepTrue]

theorem keepTrue_nil_mask {α : Type} (l : List α) : keepTrue l [] = [] := by
  simp [keepTrue]

theorem keepTrue_cons {α : Type} (x : α) (xs : List α) (b : Bool) (bs : List Bool) :
    keepTrue (x :: xs) (b :: bs) =
      if b then x :: keepTrue xs bs else keepTrue xs bs := by
  cases b <;> simp [keepTrue, List.filter_cons]

theorem keepTrue_map_self {α : Type} (l : List α) (p : α → Bool) :
    keepTrue l (l.map p) = l.filter p := by
  induction l with
  | nil => rfl
  | cons x xs ih =>
    rw [List.map_cons, keepTrue_cons, List.filter_cons, ih]

theorem keepTrue_zip_filter {α β : Type} (l₁ : List α) (l₂ : List β) (p : β → Bool)
    (h : l₁.length = l₂.length) :
    keepTrue l₁ (l₂.map p) = ((l₁.zip l₂).filter (fun q => p q.2)).map Prod.fst := by
  induction l₁ generalizing l₂ with
  | nil => rfl
  | cons x xs ih =>
    cases l₂ with
    | nil => simp at h
    | cons y ys =>
      simp only [List.length_cons, Nat.succ.injEq] at h
      rw [List.map_cons, keepTrue_cons, List.zip_cons_cons, List.filter_cons,
        ih ys h]
      by_cases hy : p y <;> simp [hy]

theorem keepTrue_all_true {α β : Type} (l₁ : List α) (l₂ : List β) (p : β → Bool)
    (h : l₁.length = l₂.length) (hall : ∀ x ∈ l₂, p x = true) :
    keepTrue l₁ (l₂.map p) = l₁ := by
  induction l₁ generalizing l₂ with
  | nil => rfl
  | cons x xs ih =>
    cases l₂ with
    | nil => simp at h
    | cons y ys =>
      simp only [List.length_cons, Nat.succ.injEq] at h
      have hy : p y = true := hall y (by simp)
      rw [List.map_cons, keepTrue_cons, hy, if_pos rfl,
        ih ys h (fun z hz => hall z (by simp [hz]))]

theorem keepTrue_sublist {α : Type} (l : List α) (m : List Bool) :
    (keepTrue l m).Sublist l := by
  induction l generalizing m with
  | nil => simp [keepTrue_nil]
  | cons x xs ih =>
    cases m with
    | nil => simp [keepTrue_nil_mask]
    | cons b bs =>
      rw [keepTrue_cons]
      cases b
      · exact (ih bs).cons x
      · exact (ih bs).cons₂ x

theorem isPrefixOf_self_append (l r : List Char) : l.isPrefixOf (l ++ r) = true := by
  induction l with
  | nil => simp [List.isPrefixOf]
  | cons x xs ih => simp [List.isPrefixOf, ih]

theorem containsSub_self_append (p r : List Char) : containsSub p (p ++ r) = true := by
  cases p with
  | nil => cases r <;> simp [containsSub, List.isPrefixOf]
  | cons x xs =>
    have h := isPrefixOf_self_append (x :: xs) r
    simp only [List.cons_append] at h ⊢
    simp [containsSub, h]

theorem containsSub_append_self (p l : List Char) : containsSub p (l ++ p) = true := by
  induction l with
  | nil => simpa using containsSub_self_append p []
  | cons x xs ih => simp [containsSub, ih]

theorem strContains_self_append (a b : String) : strContains (a ++ b) a = true := by
  have : (a ++ b).toList = a.toList ++ b.toList := String.data_append a b
  simp only [strContains, this]
  exact containsSub_self_append _ _

theorem strContains_append_self (a b : String) : strContains (a ++ b) b = true := by
  have : (a ++ b).toList = a.toList ++ b.toList := String.data_append a b
  simp only [strContains, this]
  exact containsSub_append_self _ _

/-!
## Split/join reconstruction

Joining the parts of a Python `split` with the separator restores the
original string; this lets the theorems below speak about a query `"X-Y"`
through the hypothesis `pySplit '-' q = [x, y]` alone.
-/

/-- `sep.join` at the character-list level, mirroring `pyJoin`. -/
def charJoin (c : Char) : List (List Char) → List Char
  | [] => []
  | [x] => x
  | x :: y :: xs => x ++ c :: charJoin c (y :: xs)

theorem splitOnChar_ne_nil (c : Char) (l : List Char) : splitOnChar c l ≠ [] := by
  cases l with
  | nil => simp [splitOnChar]
  | cons x xs =>
    simp only [splitOnChar]
    cases h : splitOnChar c xs with
    | nil => simp
    | cons y ys => by_cases hx : x = c <;> simp [hx]

theorem charJoin_splitOnChar (c : Char) (l : List Char) :
    charJoin c (splitOnChar c l) = l := by
  induction l with
  | nil => rfl
  | cons x xs ih =>
    cases h : splitOnChar c xs with
    | nil => exact absurd h (splitOnChar_ne_nil c xs)
    | cons y ys =>
      rw [h] at ih
      by_cases hx : x = c
      · subst hx
        simp only [splitOnChar, h, if_pos rfl, charJoin]
        simpa using ih
      · simp only [splitOnChar, h, if_neg hx]
        cases ys with
        | nil =>
          simp only [charJoin] at ih ⊢
          simp [ih]
        | cons z zs =>
          simp only [charJoin] at ih ⊢
          simp [ih]

theorem pyJoin_mk (c : Char) (ps : List (List Char)) :
    pyJoin (String.mk [c]) (ps.map String.mk) = String.mk (charJoin c ps) := by
  induction ps with
  | nil => rfl
  | cons x xs ih =>
    cases xs with
    | nil => rfl
    | cons y ys =>
      simp only [List.map_cons, pyJoin, charJoin] at ih ⊢
      rw [ih]
      show String.mk ((x ++ [c]) ++ charJoin c (y :: ys)) = _
      rw [List.append_assoc]
      rfl

theorem pyJoin_pySplit (c : Char) (s : String) :
    pyJoin (String.mk [c]) (pySplit c s) = s := by
  unfold pySplit
  rw [pyJoin_mk, charJoin_splitOnChar]
  rfl

/-- A string whose `'-'`-split is the two-element list `[x, y]` is exactly
`x ++ "-" ++ y`. -/
theorem split_pair_eq {q x y : String} (h : pySplit '-' q = [x, y]) :
    q = x ++ "-" ++ y := by
  have hr := pyJoin_pySplit '-' q
  rw [h] at hr
  exact hr.symm

/-- Under a two-part split, the source's swapped variant of a term
`"A-B"` is exactly `"B-A"`. -/
theorem swapJoin_pair {t a b : String} (h : pySplit '-' t = [a, b]) :
    swapJoin t = b ++ "-" ++ a := by
  unfold swapJoin
  rw [h]
  rfl

/-!
## Per-row characterization of the vectorized masks
-/

/-- The per-row predicate computed by `has_hbond`: some present
`combined_hbond_i` column whose cell contains the term or its swapped
variant. -/
def hbRowHit (cols : List String) (hbond : String) (r : Row) : Bool :=
  combinedCols.any (fun col =>
    cols.contains col &&
      [hbond, swapJoin hbond].any (fun v => cellContains (rowGet r col) v))

theorem seriesOr_map_map {α : Type} (l : List α) (p q : α → Bool) :
    seriesOr (l.map p) (l.map q) = l.map (fun a => p a || q a) :=
  zipWith_map_map or p q l

theorem seriesAnd_map_map {α : Type} (l : List α) (p q : α → Bool) :
    seriesAnd (l.map p) (l.map q) = l.map (fun a => p a && q a) :=
  zipWith_map_map and p q l

theorem hb_fold_char (df : DataFrame) (hbond : String) (cs : List String)
    (p : Row → Bool) :
    cs.foldl
      (fun mask col =>
        if df.cols.contains col then
          [hbond, swapJoin hbond].foldl
            (fun m v => seriesOr m (strColContains df col v)) mask
        else mask)
      (df.rows.map p) =
    df.rows.map (fun r =>
      p r || cs.any (fun col =>
        df.cols.contains col &&
          [hbond, swapJoin hbond].any (fun v => cellContains (rowGet r col) v))) := by
  induction cs generalizing p with
  | nil =>
    simp only [List.foldl_nil, List.any_nil]
    congr 1
    funext r
    simp
  | cons c cs ih =>
    rw [List.foldl_cons]
    by_cases hc : df.cols.contains c = true
    · have hstep :
          [hbond, swapJoin hbond].foldl
            (fun m v => seriesOr m (strColContains df c v)) (df.rows.map p) =
          df.rows.map (fun r =>
            p r || (cellContains (rowGet r c) hbond ||
                    cellContains (rowGet r c) (swapJoin hbond))) := by
        show seriesOr (seriesOr (df.rows.map p) (strColContains df c hbond))
            (strColContains df c (swapJoin hbond)) = _
        unfold strColContains
        rw [seriesOr_map_map, seriesOr_map_map]
        congr 1
        funext r
        rw [Bool.or_assoc]
      rw [if_pos hc, hstep, ih]
      have hc' : c ∈ df.cols := List.mem_of_elem_eq_true hc
      congr 1
      funext r
      cases hp : p r <;> simp [hc']
    · rw [if_neg hc, ih]
      have hc' : ¬ c ∈ df.cols := fun hm => hc (List.elem_eq_true_of_mem hm)
      congr 1
      funext r
      simp [hc']

theorem has_hbond_eq_map (df : DataFrame) (hbond : String) :
    has_hbond df hbond = df.rows.map (hbRowHit df.cols hbond) := by
  unfold has_hbond
  rw [replicate_length_eq_map, hb_fold_char]
  unfold hbRowHit
  congr 1

/-- The per-row predicate computed by the whole of `find_bp_interest`:
the base-pair cell is one of the acceptable labels, and every requested
hydrogen-bond term hits the row. -/
def rowKeep (cols : List String) (bps : List String) (hbonds : List String)
    (r : Row) : Bool :=
  cellIsin (rowGet r "base_pair") bps && hbonds.all (fun h => hbRowHit cols h r)

theorem mask_fold_char (df : DataFrame) (hbonds : List String) (p : Row → Bool) :
    hbonds.foldl (fun m h => seriesAnd m (has_hbond df h)) (df.rows.map p) =
    df.rows.map (fun r => p r && hbonds.all (fun h => hbRowHit df.cols h r)) := by
  induction hbonds generalizing p with
  | nil =>
    simp only [List.foldl_nil, List.all_nil]
    congr 1
    funext r
    simp
  | cons h hs ih =>
    simp only [List.foldl_cons]
    rw [has_hbond_eq_map, seriesAnd_map_map, ih]
    congr 1
    funext r
    rw [List.all_cons, ← Bool.and_assoc]

/-- `find_bp_interest` on a label whose split has at least two parts:
the result is the boolean selection of the input by the per-row
predicate `rowKeep`. -/
theorem find_ok_char (df : DataFrame) (bp : String) (hbonds : List String)
    (bps : List String) (hbp : bpVariants bp = some bps) :
    find_bp_interest df bp hbonds =
      Except.ok (dfFilter df (df.rows.map (rowKeep df.cols bps hbonds))) := by
  unfold find_bp_interest find_bp_interest_st
  rw [hbp]
  have hmask :
      hbonds.foldl (fun m h => seriesAnd m (has_hbond df h))
        (dfIsin df "base_pair" bps) =
      df.rows.map (rowKeep df.cols bps hbonds) := by
    unfold dfIsin
    rw [mask_fold_char]
    rfl
  simp only [hmask]

/-- `find_bp_interest` on a label with no separator raises `IndexError`. -/
theorem find_err_char (df : DataFrame) (bp : String) (hbonds : List String)
    (hbp : bpVariants bp = none) :
    find_bp_interest df bp hbonds =
      Except.error "IndexError: list index out of range" := by
  unfold find_bp_interest find_bp_interest_st
  rw [hbp]

/-- The state-threading form never changes the input frame. -/
theorem find_st_frame (df : DataFrame) (bp : String) (hbonds : List String) :
    (find_bp_interest_st df bp hbonds).1 = df := by
  unfold find_bp_interest_st
  cases hbp : bpVariants bp <;> rfl

/-!
## Claim C1 — base-pair label matching
-/

/-- For a query splitting into two parts, the acceptable-label list the
source builds is the claim's acceptable set. -/
theorem bpVariants_pair {q x y : String} (hq : pySplit '-' q = [x, y]) :
    bpVariants q = some (if x = y then [q] else [q, y ++ "-" ++ x]) := by
  unfold bpVariants
  rw [hq]
  show some (if x ≠ y then [q, y ++ "-" ++ x] else [q]) = _
  by_cases hxy : x = y
  · rw [if_neg (by simp [hxy]), if_pos hxy]
  · rw [if_pos hxy, if_neg hxy]

/-- C1: for every well-formed base-pair query label `"X-Y"` (its `'-'`-split
is the pair `(X, Y)`), the source splits the query, forms the acceptable set
`{query}` when `X = Y` and `{query, "Y-X"}` otherwise, and a row's
`base_pair` cell matches exactly when it is a member of that set under
exact, case-sensitive string equality; hence for `X ≠ Y` the queries
`"X-Y"` and `"Y-X"` match the same cells, and for `X = Y` only the single
form `"X-X"` matches. -/
theorem c1_base_pair_label_matching (x y q q' v : String)
    (hq : pySplit '-' q = [x, y]) (hq' : pySplit '-' q' = [y, x]) :
    bpVariants q = some (if x = y then [q] else [q, y ++ "-" ++ x]) ∧
    (cellIsin (Cell.str v) ((bpVariants q).getD []) = true ↔
      v ∈ (if x = y then [q] else [q, y ++ "-" ++ x])) ∧
    (x ≠ y → cellIsin (Cell.str v) ((bpVariants q).getD []) =
      cellIsin (Cell.str v) ((bpVariants q').getD [])) ∧
    (x = y → (cellIsin (Cell.str v) ((bpVariants q).getD []) = true ↔ v = q)) := by
  have h1 := bpVariants_pair hq
  have h1' := bpVariants_pair hq'
  refine ⟨h1, ?_, ?_, ?_⟩
  · rw [h1]
    by_cases hxy : x = y <;> simp [hxy, cellIsin]
  · intro hxy
    have hq2 := split_pair_eq hq
    have hq2' := split_pair_eq hq'
    rw [h1, h1', if_neg hxy, if_neg (Ne.symm hxy)]
    subst hq2
    subst hq2'
    by_cases hv : v = x ++ "-" ++ y <;> by_cases hv' : v = y ++ "-" ++ x <;>
      simp [cellIsin, hv, hv']
  · intro hxy
    rw [h1, if_pos hxy]
    simp [cellIsin]

theorem c1_base_pair_label_matching_witness :
    (pySplit '-' "G-U" = ["G", "U"]) ∧ (pySplit '-' "U-G" = ["U", "G"]) ∧
    bpVariants "G-U" =
      some (if "G" = "U" then ["G-U"] else ["G-U", "U" ++ "-" ++ "G"]) ∧
    (cellIsin (Cell.str "U-G") ((bpVariants "G-U").getD []) = true ↔
      "U-G" ∈ (if "G" = "U" then ["G-U"] else ["G-U", "U" ++ "-" ++ "G"])) ∧
    cellIsin (Cell.str "U-G") ((bpVariants "G-U").getD []) =
      cellIsin (Cell.str "U-G") ((bpVariants "U-G").getD []) :=
  ⟨by decide, by decide,
    (c1_base_pair_label_matching "G" "U" "G-U" "U-G" "U-G" (by decide)
      (by decide)).1,
    (c1_base_pair_label_matching "G" "U" "G-U" "U-G" "U-G" (by decide)
      (by decide)).2.1,
    (c1_base_pair_label_matching "G" "U" "G-U" "U-G" "U-G" (by decide)
      (by decide)).2.2.1 (by decide)⟩

/-!
## Claim C2 — hydrogen-bond term matching
-/

/-- C2: for every frame and every hydrogen-bond query term `"A-B"` (its
`'-'`-split is the pair `(A, B)`), `has_hbond` yields, row by row, `true`
exactly when some present combined descriptor column among
`combined_hbond_1 .. combined_hbond_10` contains the term or its
left-right-swapped form `"B-A"` as a substring, a missing cell counting as
non-matching; in particular a row whose only descriptor is `"B-A_2.9"`
matches the query term `"A-B"`. -/
theorem c2_hbond_term_matching (df : DataFrame) (a b t : String)
    (ht : pySplit '-' t = [a, b]) :
    has_hbond df t = df.rows.map (fun r =>
      combinedCols.any (fun col =>
        df.cols.contains col &&
          (cellContains (rowGet r col) t ||
           cellContains (rowGet r col) (b ++ "-" ++ a)))) ∧
    has_hbond
      (DataFrame.mk [0] ["combined_hbond_1"]
        [[("combined_hbond_1", Cell.str (b ++ "-" ++ a ++ "_2.9"))]]) t = [true] := by
  have hsw := swapJoin_pair ht
  constructor
  · rw [has_hbond_eq_map]
    unfold hbRowHit
    rw [hsw]
    congr 1
    funext r
    simp only [List.any_cons, List.any_nil, Bool.or_false]
  · rw [has_hbond_eq_map]
    have hsc : strContains (b ++ "-" ++ a ++ "_2.9") (b ++ "-" ++ a) = true :=
      strContains_self_append (b ++ "-" ++ a) "_2.9"
    simp [hbRowHit, combinedCols, cellContains, rowGet, hsw, hsc]

theorem c2_hbond_term_matching_witness :
    (pySplit '-' "O6-N3" = ["O6", "N3"]) ∧
    (has_hbond (DataFrame.mk [0] ["combined_hbond_1"]
        [[("combined_hbond_1", Cell.str "N3-O6_2.9")]]) "O6-N3" =
      (DataFrame.mk [0] ["combined_hbond_1"]
        [[("combined_hbond_1", Cell.str "N3-O6_2.9")]]).rows.map (fun r =>
        combinedCols.any (fun col =>
          (DataFrame.mk [0] ["combined_hbond_1"]
            [[("combined_hbond_1", Cell.str "N3-O6_2.9")]]).cols.contains col &&
            (cellContains (rowGet r col) "O6-N3" ||
             cellContains (rowGet r col) ("N3" ++ "-" ++ "O6")))) ∧
      has_hbond
        (DataFrame.mk [0] ["combined_hbond_1"]
          [[("combined_hbond_1", Cell.str ("N3" ++ "-" ++ "O6" ++ "_2.9"))]])
        "O6-N3" = [true]) :=
  ⟨by decide,
    c2_hbond_term_matching
      (DataFrame.mk [0] ["combined_hbond_1"]
        [[("combined_hbond_1", Cell.str "N3-O6_2.9")]]) "O6" "N3" "O6-N3"
      (by decide)⟩

/-!
## Claim C9 — the matcher does not mutate its input
-/

/-- What a successful `find_bp_interest` result is allowed to be built of:
the input's columns unchanged, and a subsequence of the input's rows with
their values untouched. -/
def resultWithin (df : DataFrame) : Except String DataFrame → Prop
  | .ok res => res.cols = df.cols ∧ res.rows.Sublist df.rows
  | .error _ => True

/-- C9: `find_bp_interest` (with `has_hbond` inside it) never mutates the
input frame: the state-threaded embedding returns the input unchanged —
the body only reads columns and builds fresh masks — and the returned
result is assembled from the input's own rows and columns. -/
theorem c9_find_bp_interest_no_mutation (df : DataFrame) (bp : String)
    (hbonds : List String) :
    (find_bp_interest_st df bp hbonds).1 = df ∧
    resultWithin df (find_bp_interest_st df bp hbonds).2 := by
  refine ⟨find_st_frame df bp hbonds, ?_⟩
  unfold find_bp_interest_st
  cases hbp : bpVariants bp with
  | none => exact trivial
  | some bps => exact ⟨rfl, keepTrue_sublist _ _⟩

/-!
## Claim C4 — result shape of `find_bp_interest`
-/

/-- C4 as amended: for a well-formed label and a non-empty term list,
`find_bp_interest` returns exactly the rows on which the base-pair mask and
all per-term hydrogen-bond masks hold, in their original relative order,
with all original columns — and the surviving rows keep their *original*
index labels (pandas boolean selection does not reset the index). -/
theorem c4_find_bp_interest_result (df : DataFrame) (bp : String)
    (hbonds : List String) (bps : List String)
    (hWF : df.idx.length = df.rows.length)
    (hbp : bpVariants bp = some bps) (_hne : hbonds ≠ []) :
    find_bp_interest df bp hbonds =
      Except.ok
        (DataFrame.mk
          (((df.idx.zip df.rows).filter
              (fun q => rowKeep df.cols bps hbonds q.2)).map Prod.fst)
          df.cols
          (df.rows.filter (rowKeep df.cols bps hbonds))) := by
  rw [find_ok_char df bp hbonds bps hbp]
  unfold dfFilter
  rw [keepTrue_map_self, keepTrue_zip_filter df.idx df.rows _ hWF]

theorem c4_find_bp_interest_result_witness :
    ((DataFrame.mk [0, 1] ["base_pair", "combined_hbond_1"]
        [[("base_pair", Cell.str "A-U"), ("combined_hbond_1", Cell.str "N1-N3_2.8")],
         [("base_pair", Cell.str "G-U"), ("combined_hbond_1", Cell.str "O6-N3_2.8")]]).idx.length =
      (DataFrame.mk [0, 1] ["base_pair", "combined_hbond_1"]
        [[("base_pair", Cell.str "A-U"), ("combined_hbond_1", Cell.str "N1-N3_2.8")],
         [("base_pair", Cell.str "G-U"), ("combined_hbond_1", Cell.str "O6-N3_2.8")]]).rows.length) ∧
    (bpVariants "G-U" = some ["G-U", "U-G"]) ∧ (["O6-N3"] ≠ ([] : List String)) ∧
    (find_bp_interest
        (DataFrame.mk [0, 1] ["base_pair", "combined_hbond_1"]
          [[("base_pair", Cell.str "A-U"), ("combined_hbond_1", Cell.str "N1-N3_2.8")],
           [("base_pair", Cell.str "G-U"), ("combined_hbond_1", Cell.str "O6-N3_2.8")]])
        "G-U" ["O6-N3"] =
      Except.ok
        (DataFrame.mk
          ((((DataFrame.mk [0, 1] ["base_pair", "combined_hbond_1"]
              [[("base_pair", Cell.str "A-U"), ("combined_hbond_1", Cell.str "N1-N3_2.8")],
               [("base_pair", Cell.str "G-U"), ("combined_hbond_1", Cell.str "O6-N3_2.8")]]).idx.zip
              (DataFrame.mk [0, 1] ["base_pair", "combined_hbond_1"]
              [[("base_pair", Cell.str "A-U"), ("combined_hbond_1", Cell.str "N1-N3_2.8")],
               [("base_pair", Cell.str "G-U"), ("combined_hbond_1", Cell.str "O6-N3_2.8")]]).rows).filter
              (fun q => rowKeep ["base_pair", "combined_hbond_1"] ["G-U", "U-G"] ["O6-N3"] q.2)).map Prod.fst)
          ["base_pair", "combined_hbond_1"]
          ((DataFrame.mk [0, 1] ["base_pair", "combined_hbond_1"]
            [[("base_pair", Cell.str "A-U"), ("combined_hbond_1", Cell.str "N1-N3_2.8")],
             [("base_pair", Cell.str "G-U"), ("combined_hbond_1", Cell.str "O6-N3_2.8")]]).rows.filter
            (rowKeep ["base_pair", "combined_hbond_1"] ["G-U", "U-G"] ["O6-N3"])))) :=
  ⟨by decide, by decide, by decide,
    c4_find_bp_interest_result
      (DataFrame.mk [0, 1] ["base_pair", "combined_hbond_1"]
        [[("base_pair", Cell.str "A-U"), ("combined_hbond_1", Cell.str "N1-N3_2.8")],
         [("base_pair", Cell.str "G-U"), ("combined_hbond_1", Cell.str "O6-N3_2.8")]])
      "G-U" ["O6-N3"] ["G-U", "U-G"] (by decide) (by decide) (by decide)⟩

/-- C4 counterexample input: a two-row frame whose first row does not match
the query, so exactly the second row (original index label `1`) survives. -/
def c4df : DataFrame :=
  DataFrame.mk [0, 1] ["base_pair", "combined_hbond_1"]
    [[("base_pair", Cell.str "A-U"), ("combined_hbond_1", Cell.str "N1-N3_2.8")],
     [("base_pair", Cell.str "G-U"), ("combined_hbond_1", Cell.str "O6-N3_2.8")]]

/-- C4 counterexample: on `c4df` with query `("G-U", ["O6-N3"])` the single
surviving row keeps its original index label `1`; a reset index/ordinal
would be `[0]`.  The claim's "with the row index/ordinal reset" is false of
the code (`results = df[mask]` performs no `reset_index`). -/
theorem c4_index_not_reset_counterexample :
    find_bp_interest c4df "G-U" ["O6-N3"] =
      Except.ok
        (DataFrame.mk [1] ["base_pair", "combined_hbond_1"]
          [[("base_pair", Cell.str "G-U"), ("combined_hbond_1", Cell.str "O6-N3_2.8")]]) ∧
    (DataFrame.mk [1] ["base_pair", "combined_hbond_1"]
      [[("base_pair", Cell.str "G-U"), ("combined_hbond_1", Cell.str "O6-N3_2.8")]]).idx ≠ [0] := by
  constructor
  · decide
  · decide

/-!
## Claim C5 — malformed base-pair labels
-/

/-- C5 as amended: on a base-pair label containing no `"-"` separator (its
split is a one-element list) `find_bp_interest` raises an `IndexError`
(`bp_split[1]` is out of range) instead of returning zero rows — the
operation is *not* total over its string input domain. -/
theorem c5_malformed_label_raises (df : DataFrame) (bp s : String)
    (hbonds : List String) (h : pySplit '-' bp = [s]) :
    find_bp_interest df bp hbonds =
      Except.error "IndexError: list index out of range" := by
  apply find_err_char
  unfold bpVariants
  rw [h]

theorem c5_malformed_label_raises_witness :
    (pySplit '-' "GU" = ["GU"]) ∧
    find_bp_interest c4df "GU" ["O6-N3"] =
      Except.error "IndexError: list index out of range" :=
  ⟨by decide, c5_malformed_label_raises c4df "GU" "GU" ["O6-N3"] (by decide)⟩

/-- C5 counterexample: on the label `"GU"` (no separator) the call raises
`IndexError` rather than returning an empty result, so "returns zero rows
and never throws" is false of the code. -/
theorem c5_not_total_counterexample :
    find_bp_interest c4df "GU" ["O6-N3"] =
      Except.error "IndexError: list index out of range" ∧
    (find_bp_interest c4df "GU" ["O6-N3"]).isOk = false := by
  exact ⟨by decide, by decide⟩

/-!
## Claim C6 — idempotence
-/

theorem keepTrue_length_eq {α β : Type} (l₁ : List α) (l₂ : List β) (p : β → Bool)
    (h : l₁.length = l₂.length) :
    (keepTrue l₁ (l₂.map p)).length = (l₂.filter p).length := by
  induction l₁ generalizing l₂ with
  | nil =>
    cases l₂ with
    | nil => rfl
    | cons y ys => simp at h
  | cons x xs ih =>
    cases l₂ with
    | nil => simp at h
    | cons y ys =>
      simp only [List.length_cons, Nat.succ.injEq] at h
      rw [List.map_cons, keepTrue_cons, List.filter_cons]
      cases hy : p y <;> simp [ih ys h]

/-- Selecting with a mask that holds on every row of a well-formed frame
returns the frame unchanged. -/
theorem dfFilter_self_pred (F : DataFrame) (p : Row → Bool)
    (hlen : F.idx.length = F.rows.length)
    (hall : ∀ r ∈ F.rows, p r = true) :
    dfFilter F (F.rows.map p) = F := by
  apply DataFrame.ext
  · exact keepTrue_all_true _ _ _ hlen hall
  · rfl
  · show keepTrue F.rows (F.rows.map p) = F.rows
    rw [keepTrue_map_self]
    exact List.filter_eq_self.mpr hall

/-- C6: `find_bp_interest` is idempotent — re-filtering an already-filtered
result with the same base-pair label and term list returns it unchanged. -/
theorem c6_find_bp_interest_idempotent (df res : DataFrame) (bp : String)
    (hbonds : List String) (hWF : df.idx.length = df.rows.length)
    (hok : find_bp_interest df bp hbonds = Except.ok res) :
    find_bp_interest res bp hbonds = Except.ok res := by
  cases hbp : bpVariants bp with
  | none =>
    rw [find_err_char df bp hbonds hbp] at hok
    exact absurd hok (by simp)
  | some bps =>
    rw [find_ok_char df bp hbonds bps hbp] at hok
    simp only [Except.ok.injEq] at hok
    subst hok
    rw [find_ok_char _ bp hbonds bps hbp]
    congr 1
    have hrows : (dfFilter df (df.rows.map (rowKeep df.cols bps hbonds))).rows =
        df.rows.filter (rowKeep df.cols bps hbonds) := keepTrue_map_self _ _
    have hall : ∀ r ∈ (dfFilter df (df.rows.map (rowKeep df.cols bps hbonds))).rows,
        rowKeep df.cols bps hbonds r = true := by
      rw [hrows]
      intro r hr
      exact (List.mem_filter.mp hr).2
    have hlen : (dfFilter df (df.rows.map (rowKeep df.cols bps hbonds))).idx.length =
        (dfFilter df (df.rows.map (rowKeep df.cols bps hbonds))).rows.length := by
      rw [hrows]
      exact keepTrue_length_eq df.idx df.rows _ hWF
    exact dfFilter_self_pred _ _ hlen hall

theorem c6_find_bp_interest_idempotent_witness :
    (c4df.idx.length = c4df.rows.length) ∧
    (find_bp_interest c4df "G-U" ["O6-N3"] =
      Except.ok
        (DataFrame.mk [1] ["base_pair", "combined_hbond_1"]
          [[("base_pair", Cell.str "G-U"), ("combined_hbond_1", Cell.str "O6-N3_2.8")]])) ∧
    find_bp_interest
        (DataFrame.mk [1] ["base_pair", "combined_hbond_1"]
          [[("base_pair", Cell.str "G-U"), ("combined_hbond_1", Cell.str "O6-N3_2.8")]])
        "G-U" ["O6-N3"] =
      Except.ok
        (DataFrame.mk [1] ["base_pair", "combined_hbond_1"]
          [[("base_pair", Cell.str "G-U"), ("combined_hbond_1", Cell.str "O6-N3_2.8")]]) :=
  ⟨by decide, by decide,
    c6_find_bp_interest_idempotent c4df
      (DataFrame.mk [1] ["base_pair", "combined_hbond_1"]
        [[("base_pair", Cell.str "G-U"), ("combined_hbond_1", Cell.str "O6-N3_2.8")]])
      "G-U" ["O6-N3"] (by decide) (by decide)⟩

/-!
## Claim C8 — empty term list
-/

/-- C8 as amended: invoked with an empty hydrogen-bond term list (despite
the caller-side precondition), `find_bp_interest` does not crash, but its
behaviour is *neither* of the two documented options: it returns the rows
selected by the base-pair mask alone — in general a non-empty result and
not a validation error. -/
theorem c8_empty_terms_returns_bp_filter (df : DataFrame) (bp : String)
    (bps : List String) (hbp : bpVariants bp = some bps) :
    find_bp_interest df bp [] =
      Except.ok
        (dfFilter df (df.rows.map (fun r => cellIsin (rowGet r "base_pair") bps))) := by
  rw [find_ok_char df bp [] bps hbp]
  have hmap : df.rows.map (rowKeep df.cols bps []) =
      df.rows.map (fun r => cellIsin (rowGet r "base_pair") bps) := by
    congr 1
    funext r
    simp [rowKeep]
  rw [hmap]

theorem c8_empty_terms_returns_bp_filter_witness :
    (bpVariants "G-U" = some ["G-U", "U-G"]) ∧
    find_bp_interest c4df "G-U" [] =
      Except.ok
        (dfFilter c4df (c4df.rows.map (fun r =>
          cellIsin (rowGet r "base_pair") ["G-U", "U-G"]))) :=
  ⟨by decide, c8_empty_terms_returns_bp_filter c4df "G-U" ["G-U", "U-G"] (by decide)⟩

/-- C8 counterexample: with an empty term list on a frame holding one
matching base pair, the call yields a *non-empty* `Except.ok` result —
not an empty result (the returned rows are non-empty) and not a raised
validation error (the call returns `ok`), contradicting "its behavior is
one of the two documented options". -/
theorem c8_empty_terms_counterexample :
    find_bp_interest c4df "G-U" [] =
      Except.ok
        (DataFrame.mk [1] ["base_pair", "combined_hbond_1"]
          [[("base_pair", Cell.str "G-U"), ("combined_hbond_1", Cell.str "O6-N3_2.8")]]) ∧
    (DataFrame.mk [1] ["base_pair", "combined_hbond_1"]
      [[("base_pair", Cell.str "G-U"), ("combined_hbond_1", Cell.str "O6-N3_2.8")]]).rows ≠ [] ∧
    (find_bp_interest c4df "G-U" []).isOk = true := by
  exact ⟨by decide, by decide, by decide⟩

/-!
## Claim C10 — derived descriptor columns in user-facing output
-/

/-- C10 as amended: the combined descriptor columns materialized at load
time are *not* scoped out of the result — a successful `find_bp_interest`
keeps every column of its input, so the displayed table (`results.head(1000)`)
has exactly the input's columns and the CSV header of the exported artifact
equals that of the input, synthesized `combined_hbond_*` columns included. -/
theorem c10_descriptor_columns_in_output (df res : DataFrame) (bp : String)
    (hbonds : List String)
    (hok : find_bp_interest df bp hbonds = Except.ok res) :
    (dfHead res 1000).cols = df.cols ∧ csvHeader res = csvHeader df := by
  cases hbp : bpVariants bp with
  | none =>
    rw [find_err_char df bp hbonds hbp] at hok
    exact absurd hok (by simp)
  | some bps =>
    rw [find_ok_char df bp hbonds bps hbp] at hok
    simp only [Except.ok.injEq] at hok
    subst hok
    exact ⟨rfl, rfl⟩

theorem c10_descriptor_columns_in_output_witness :
    (find_bp_interest c4df "G-U" ["O6-N3"] =
      Except.ok
        (DataFrame.mk [1] ["base_pair", "combined_hbond_1"]
          [[("base_pair", Cell.str "G-U"), ("combined_hbond_1", Cell.str "O6-N3_2.8")]])) ∧
    ((dfHead
        (DataFrame.mk [1] ["base_pair", "combined_hbond_1"]
          [[("base_pair", Cell.str "G-U"), ("combined_hbond_1", Cell.str "O6-N3_2.8")]])
        1000).cols = c4df.cols ∧
      csvHeader
        (DataFrame.mk [1] ["base_pair", "combined_hbond_1"]
          [[("base_pair", Cell.str "G-U"), ("combined_hbond_1", Cell.str "O6-N3_2.8")]]) =
        csvHeader c4df) :=
  ⟨by decide,
    c10_descriptor_columns_in_output c4df
      (DataFrame.mk [1] ["base_pair", "combined_hbond_1"]
        [[("base_pair", Cell.str "G-U"), ("combined_hbond_1", Cell.str "O6-N3_2.8")]])
      "G-U" ["O6-N3"] (by decide)⟩

/-- C10 counterexample input: a raw frame as loaded (one atom column and one
distance column under suffix `hbond_1`) before descriptor synthesis. -/
def c10raw : DataFrame :=
  DataFrame.mk [0] ["base_pair", "x_hbond_1", "y_hbond_1"]
    [[("base_pair", Cell.str "G-U"), ("x_hbond_1", Cell.str "O6-N3"),
      ("y_hbond_1", Cell.str "2.8")]]

/-- The result the app displays and exports for `c10raw` after loading
(descriptor synthesis) and searching `("G-U", ["O6-N3"])`. -/
def c10res : DataFrame :=
  DataFrame.mk [0] ["base_pair", "x_hbond_1", "y_hbond_1", "combined_hbond_1"]
    [[("combined_hbond_1", Cell.str "O6-N3_2.8"), ("base_pair", Cell.str "G-U"),
      ("x_hbond_1", Cell.str "O6-N3"), ("y_hbond_1", Cell.str "2.8")]]

/-- C10 counterexample: running the app's pipeline — descriptor synthesis at
load, then the search — produces a result whose displayed table *does*
contain the synthesized column `combined_hbond_1` and whose exported CSV
header *does* mention it, contradicting "never appear in user-facing
output". -/
theorem c10_leak_counterexample :
    find_bp_interest (buildDescriptors c10raw) "G-U" ["O6-N3"] =
      Except.ok c10res ∧
    "combined_hbond_1" ∈ (dfHead c10res 1000).cols ∧
    strContains (csvHeader c10res) "combined_hbond_1" = true := by
  exact ⟨by decide, by decide, by decide⟩

/-!
## Facts about descriptor synthesis (`buildDescriptors`)
-/

theorem zipWith_self_map {α β γ : Type} (g : α → β → γ) (f : α → β) (l : List α) :
    List.zipWith g l (l.map f) = l.map (fun a => g a (f a)) := by
  induction l with
  | nil => rfl
  | cons x xs ih => simp [ih]

theorem rowGet_rowSet_eq (r : Row) (c : String) (v : Cell) :
    rowGet (rowSet r c v) c = v := by
  unfold rowGet rowSet
  rw [List.find?_cons_of_pos _ (by simp)]

theorem rowGet_rowSet_ne (r : Row) (c c' : String) (v : Cell) (h : c' ≠ c) :
    rowGet (rowSet r c v) c' = rowGet r c' := by
  unfold rowGet rowSet
  rw [List.find?_cons_of_neg _ (by simp [Ne.symm h])]

theorem dfSetCol_rows_map (df : DataFrame) (c : String) (f : Row → Cell) :
    (dfSetCol df c (df.rows.map f)).rows =
      df.rows.map (fun r => rowSet r c (f r)) := by
  show List.zipWith (fun r v => rowSet r c v) df.rows (df.rows.map f) = _
  exact zipWith_self_map _ _ _

theorem str_append_left_cancel {s a b : String} (h : s ++ a = s ++ b) : a = b := by
  have hd := congrArg String.data h
  rw [String.data_append, String.data_append] at hd
  exact String.ext (List.append_cancel_left hd)

theorem pyStartswith_append (p s : String) : pyStartswith (p ++ s) p = true := by
  unfold pyStartswith
  have hd : (p ++ s).toList = p.toList ++ s.toList := String.data_append p s
  rw [hd]
  exact isPrefixOf_self_append _ _

theorem dedupFirstAux_nodup (l : List String) :
    ∀ seen : List String,
      (dedupFirstAux seen l).Nodup ∧ ∀ x ∈ dedupFirstAux seen l, x ∉ seen := by
  induction l with
  | nil => intro seen; exact ⟨List.nodup_nil, by simp [dedupFirstAux]⟩
  | cons c cs ih =>
    intro seen
    have hres : dedupFirstAux seen (c :: cs) =
        if seen.contains c = true then dedupFirstAux seen cs
        else c :: dedupFirstAux (c :: seen) cs := rfl
    by_cases hc : seen.contains c = true
    · rw [hres, if_pos hc]
      exact ih seen
    · rw [hres, if_neg hc]
      have h := ih (c :: seen)
      constructor
      · refine List.Nodup.cons ?_ h.1
        intro hmem
        exact h.2 c hmem (by simp)
      · intro x hx
        rcases List.mem_cons.mp hx with rfl | hx'
        · intro hseen
          exact hc (List.elem_eq_true_of_mem hseen)
        · intro hseen
          exact h.2 x hx' (by simp [hseen])

theorem dedupFirst_nodup (l : List String) : (dedupFirst l).Nodup :=
  (dedupFirstAux_nodup l []).1

theorem hbondSuffixes_nodup (cols : List String) : (hbondSuffixes cols).Nodup :=
  dedupFirst_nodup _

theorem suffixGroup_mem {cols : List String} {suf c : String}
    (h : c ∈ suffixGroup cols suf) : c ∈ cols :=
  (List.mem_filter.mp h).1

theorem sorted2_fst_mem (c₁ c₂ : String) :
    (sorted2 c₁ c₂).1 = c₁ ∨ (sorted2 c₁ c₂).1 = c₂ := by
  unfold sorted2
  by_cases h : pyStrLe c₁ c₂ = true <;> simp [h]

theorem sorted2_snd_mem (c₁ c₂ : String) :
    (sorted2 c₁ c₂).2 = c₁ ∨ (sorted2 c₁ c₂).2 = c₂ := by
  unfold sorted2
  by_cases h : pyStrLe c₁ c₂ = true <;> simp [h]

/-- Invariant of the descriptor-synthesis fold.  Starting from a state `d`
whose columns are the originals plus the combined columns of the already
`processed` suffixes and whose rows are a per-row augmentation `g` of the
original rows that (i) leaves non-`combined_` columns untouched and
(ii) already carries the synthesized value for every processed two-column
suffix, folding `combineStep` over the remaining suffixes `L` preserves
the same shape with `processed ++ L`. -/
theorem combineStep_fold_char (df : DataFrame)
    (hnc : ∀ c ∈ df.cols, pyStartswith c "combined_" = false) :
    ∀ (L processed : List String) (d : DataFrame),
      (processed ++ L).Nodup →
      d.cols = df.cols ++
        ((processed.filter
          (fun s => (suffixGroup df.cols s).length == 2)).map
          (fun s => "combined_" ++ s)) →
      (∃ g : Row → Row, d.rows = df.rows.map g ∧
        (∀ r c', pyStartswith c' "combined_" = false →
          rowGet (g r) c' = rowGet r c') ∧
        (∀ suf ∈ processed, ∀ c₁ c₂, suffixGroup df.cols suf = [c₁, c₂] →
          ∀ r, rowGet (g r) ("combined_" ++ suf) =
            Cell.str (astypeStr (rowGet r (sorted2 c₁ c₂).1) ++ "_" ++
                  astypeStr (rowGet r (sorted2 c₁ c₂).2)))) →
      ((L.foldl (combineStep df.cols) d).cols = df.cols ++
          (((processed ++ L).filter
            (fun s => (suffixGroup df.cols s).length == 2)).map
            (fun s => "combined_" ++ s)) ∧
        ∃ g : Row → Row, (L.foldl (combineStep df.cols) d).rows = df.rows.map g ∧
          (∀ r c', pyStartswith c' "combined_" = false →
            rowGet (g r) c' = rowGet r c') ∧
          (∀ suf ∈ processed ++ L, ∀ c₁ c₂, suffixGroup df.cols suf = [c₁, c₂] →
            ∀ r, rowGet (g r) ("combined_" ++ suf) =
              Cell.str (astypeStr (rowGet r (sorted2 c₁ c₂).1) ++ "_" ++
                    astypeStr (rowGet r (sorted2 c₁ c₂).2)))) := by
  intro L
  induction L with
  | nil =>
    intro processed d hnd hcols hg
    simpa using ⟨hcols, hg⟩
  | cons s L ih =>
    intro processed d hnd hcols hg
    obtain ⟨g, hrows, hgnc, hgproc⟩ := hg
    have happ : processed ++ s :: L = (processed ++ [s]) ++ L := by simp
    have hnd' : ((processed ++ [s]) ++ L).Nodup := by rwa [← happ]
    rw [List.foldl_cons]
    cases hgr : suffixGroup df.cols s with
    | nil =>
      have hstep : combineStep df.cols d s = d := by
        unfold combineStep
        rw [hgr]
      have hlen2 : ((suffixGroup df.cols s).length == 2) = false := by
        rw [hgr]
        rfl
      have hres := ih (processed ++ [s]) d hnd'
        (by simpa [List.filter_append, List.filter_cons, hlen2] using hcols)
        ⟨g, hrows, hgnc, ?_⟩
      · rw [hstep, happ]
        exact hres
      · intro suf hsuf c₁' c₂' hgr'
        rcases List.mem_append.mp hsuf with hp | hs
        · exact hgproc suf hp c₁' c₂' hgr'
        · have hss : suf = s := by simpa using hs
          rw [hss, hgr] at hgr'
          exact absurd hgr' (by simp)
    | cons c₁ tl =>
      cases tl with
      | nil =>
        have hstep : combineStep df.cols d s = d := by
          unfold combineStep
          rw [hgr]
        have hlen2 : ((suffixGroup df.cols s).length == 2) = false := by
          rw [hgr]
          rfl
        have hres := ih (processed ++ [s]) d hnd'
          (by simpa [List.filter_append, List.filter_cons, hlen2] using hcols)
          ⟨g, hrows, hgnc, ?_⟩
        · rw [hstep, happ]
          exact hres
        · intro suf hsuf c₁' c₂' hgr'
          rcases List.mem_append.mp hsuf with hp | hs
          · exact hgproc suf hp c₁' c₂' hgr'
          · have hss : suf = s := by simpa using hs
            rw [hss, hgr] at hgr'
            exact absurd hgr' (by simp)
      | cons c₂ tl₂ =>
        cases tl₂ with
        | cons c₃ tl₃ =>
          have hstep : combineStep df.cols d s = d := by
            unfold combineStep
            rw [hgr]
          have hlen2 : ((suffixGroup df.cols s).length == 2) = false := by
            rw [hgr]
            simp only [List.length_cons, beq_eq_false_iff_ne]
            omega
          have hres := ih (processed ++ [s]) d hnd'
            (by simpa [List.filter_append, List.filter_cons, hlen2] using hcols)
            ⟨g, hrows, hgnc, ?_⟩
          · rw [hstep, happ]
            exact hres
          · intro suf hsuf c₁' c₂' hgr'
            rcases List.mem_append.mp hsuf with hp | hs
            · exact hgproc suf hp c₁' c₂' hgr'
            · have hss : suf = s := by simpa using hs
              rw [hss, hgr] at hgr'
              exact absurd hgr' (by simp)
        | nil =>
          have hstep : combineStep df.cols d s =
              dfSetCol d ("combined_" ++ s)
                (d.rows.map (fun r =>
                  Cell.str (astypeStr (rowGet r (sorted2 c₁ c₂).1) ++ "_" ++
                        astypeStr (rowGet r (sorted2 c₁ c₂).2)))) := by
            unfold combineStep
            rw [hgr]
          have hlen2 : ((suffixGroup df.cols s).length == 2) = true := by
            rw [hgr]
            rfl
          have hc₁ : c₁ ∈ df.cols := suffixGroup_mem (by rw [hgr]; simp)
          have hc₂ : c₂ ∈ df.cols := suffixGroup_mem (by rw [hgr]; simp)
          have hsfst : pyStartswith (sorted2 c₁ c₂).1 "combined_" = false := by
            rcases sorted2_fst_mem c₁ c₂ with h | h <;> rw [h]
            · exact hnc c₁ hc₁
            · exact hnc c₂ hc₂
          have hssnd : pyStartswith (sorted2 c₁ c₂).2 "combined_" = false := by
            rcases sorted2_snd_mem c₁ c₂ with h | h <;> rw [h]
            · exact hnc c₁ hc₁
            · exact hnc c₂ hc₂
          have hs_not : s ∉ processed := by
            intro hmem
            exact (List.nodup_append.mp hnd).2.2 hmem (by simp)
          have hcombs_df : ("combined_" ++ s) ∉ df.cols := by
            intro hmem
            have h₁ := hnc _ hmem
            rw [pyStartswith_append "combined_" s] at h₁
            exact absurd h₁ (by simp)
          have hnotin : ("combined_" ++ s) ∉ d.cols := by
            rw [hcols]
            intro hmem
            rcases List.mem_append.mp hmem with h | h
            · exact hcombs_df h
            · rcases List.mem_map.mp h with ⟨s', hs', heq⟩
              have hss : s' = s := str_append_left_cancel heq
              rw [hss] at hs'
              exact hs_not (List.mem_of_mem_filter hs')
          have hcols_step :
              (combineStep df.cols d s).cols = d.cols ++ ["combined_" ++ s] := by
            rw [hstep]
            show (if ("combined_" ++ s) ∈ d.cols then d.cols
                  else d.cols ++ ["combined_" ++ s]) = _
            rw [if_neg hnotin]
          have hcols' : (combineStep df.cols d s).cols = df.cols ++
              (((processed ++ [s]).filter
                (fun s' => (suffixGroup df.cols s').length == 2)).map
                (fun s' => "combined_" ++ s')) := by
            rw [hcols_step, hcols, List.filter_append, List.map_append,
              ← List.append_assoc]
            congr 1
            simp [List.filter_cons, hlen2]
          have hrows' : (combineStep df.cols d s).rows =
              df.rows.map (fun r =>
                rowSet (g r) ("combined_" ++ s)
                  (Cell.str (astypeStr (rowGet (g r) (sorted2 c₁ c₂).1) ++ "_" ++
                        astypeStr (rowGet (g r) (sorted2 c₁ c₂).2)))) := by
            rw [hstep, dfSetCol_rows_map, hrows, List.map_map]
            rfl
          have hres := ih (processed ++ [s]) (combineStep df.cols d s) hnd'
            hcols'
            ⟨(fun r =>
                rowSet (g r) ("combined_" ++ s)
                  (Cell.str (astypeStr (rowGet (g r) (sorted2 c₁ c₂).1) ++ "_" ++
                        astypeStr (rowGet (g r) (sorted2 c₁ c₂).2)))),
              hrows', ?_, ?_⟩
          · rw [happ]
            exact hres
          · intro r c' hc'
            have hne₂ : c' ≠ "combined_" ++ s := by
              intro heq
              rw [heq, pyStartswith_append "combined_" s] at hc'
              exact absurd hc' (by simp)
            rw [rowGet_rowSet_ne _ _ _ _ hne₂]
            exact hgnc r c' hc'
          · intro suf hsuf c₁' c₂' hgr' r
            rcases List.mem_append.mp hsuf with hp | hs
            · have hsufne : suf ≠ s := by
                intro heq
                rw [heq] at hp
                exact hs_not hp
              have hne₂ : ("combined_" ++ suf) ≠ "combined_" ++ s := by
                intro heq
                exact hsufne (str_append_left_cancel heq)
              rw [rowGet_rowSet_ne _ _ _ _ hne₂]
              exact hgproc suf hp c₁' c₂' hgr' r
            · have hss : suf = s := by simpa using hs
              subst hss
              rw [hgr] at hgr'
              have hc₁' : c₁' = c₁ := by injection hgr' with h₁ h₂; exact h₁.symm
              have hc₂' : c₂' = c₂ := by
                injection hgr' with h₁ h₂
                injection h₂ with h₃ h₄
                exact h₃.symm
              subst hc₁'
              subst hc₂'
              rw [rowGet_rowSet_eq]
              rw [hgnc r _ hsfst, hgnc r _ hssnd]

/-- Shape of `buildDescriptors df` on a frame with no pre-existing
`combined_`-named column: the original columns followed by one combined
column per exactly-two-column suffix group, and rows that augment the
original rows with exactly the synthesized descriptor values. -/
theorem buildDescriptors_shape (df : DataFrame)
    (hnc : ∀ c ∈ df.cols, pyStartswith c "combined_" = false) :
    (buildDescriptors df).cols = df.cols ++
        (((hbondSuffixes df.cols).filter
          (fun s => (suffixGroup df.cols s).length == 2)).map
          (fun s => "combined_" ++ s)) ∧
    ∃ g : Row → Row, (buildDescriptors df).rows = df.rows.map g ∧
      (∀ r c', pyStartswith c' "combined_" = false →
        rowGet (g r) c' = rowGet r c') ∧
      (∀ suf ∈ hbondSuffixes df.cols, ∀ c₁ c₂,
        suffixGroup df.cols suf = [c₁, c₂] →
        ∀ r, rowGet (g r) ("combined_" ++ suf) =
          Cell.str (astypeStr (rowGet r (sorted2 c₁ c₂).1) ++ "_" ++
                astypeStr (rowGet r (sorted2 c₁ c₂).2))) := by
  have h := combineStep_fold_char df hnc (hbondSuffixes df.cols) [] df
    (by simpa using hbondSuffixes_nodup df.cols)
    (by simp)
    ⟨id, by simp, fun r c' _ => rfl, by simp⟩
  obtain ⟨hcols, g, hrows, hgnc, hgproc⟩ := h
  refine ⟨by simpa using hcols, g, hrows, hgnc, ?_⟩
  intro suf hsuf c₁ c₂ hgr r
  exact hgproc suf (by simpa using hsuf) c₁ c₂ hgr r

/-!
## Claim C3 — grouping and synthesis of combined descriptor columns
-/

/-- C3 as amended: `buildDescriptors` groups column names by the suffix made
of their last two underscore-separated components whenever that suffix
starts with `"hbond"` — *any* such suffix, not only `hbond_1 .. hbond_10`;
for every suffix whose group has exactly two columns it appends one new
column `combined_<suffix>` whose value in every row is the string-rendered
value (`astype(str)`) of the lexicographically-first column, an underscore,
then that of the other column; every other group size yields no column and
no error, and no combined column arises from anything but such a
two-column group.  (Stated on frames with no pre-existing `combined_`
column, which is how the loader uses it.) -/
theorem c3_buildDescriptors_grouping (df : DataFrame)
    (hnc : ∀ c ∈ df.cols, pyStartswith c "combined_" = false) :
    (buildDescriptors df).cols = df.cols ++
        (((hbondSuffixes df.cols).filter
          (fun s => (suffixGroup df.cols s).length == 2)).map
          (fun s => "combined_" ++ s)) ∧
    (∀ suf ∈ hbondSuffixes df.cols, ∀ c₁ c₂,
      suffixGroup df.cols suf = [c₁, c₂] →
      dfGetCol (buildDescriptors df) ("combined_" ++ suf) =
        df.rows.map (fun r =>
          Cell.str (astypeStr (rowGet r (sorted2 c₁ c₂).1) ++ "_" ++
                astypeStr (rowGet r (sorted2 c₁ c₂).2)))) ∧
    (∀ suf : String, ("combined_" ++ suf) ∈ (buildDescriptors df).cols →
      suf ∈ hbondSuffixes df.cols ∧ (suffixGroup df.cols suf).length = 2) := by
  obtain ⟨hcols, g, hrows, hgnc, hgproc⟩ := buildDescriptors_shape df hnc
  refine ⟨hcols, ?_, ?_⟩
  · intro suf hsuf c₁ c₂ hgr
    unfold dfGetCol
    rw [hrows, List.map_map]
    apply List.map_congr_left
    intro r _
    exact hgproc suf hsuf c₁ c₂ hgr r
  · intro suf hmem
    rw [hcols] at hmem
    rcases List.mem_append.mp hmem with h | h
    · have h₁ := hnc _ h
      rw [pyStartswith_append "combined_" suf] at h₁
      exact absurd h₁ (by simp)
    · rcases List.mem_map.mp h with ⟨s', hs', heq⟩
      have hss : s' = suf := str_append_left_cancel heq
      rw [hss] at hs'
      have hm := List.mem_filter.mp hs'
      refine ⟨hm.1, ?_⟩
      have := hm.2
      simpa using this

theorem c3_buildDescriptors_grouping_witness :
    (∀ c ∈ c10raw.cols, pyStartswith c "combined_" = false) ∧
    ((buildDescriptors c10raw).cols = c10raw.cols ++
        (((hbondSuffixes c10raw.cols).filter
          (fun s => (suffixGroup c10raw.cols s).length == 2)).map
          (fun s => "combined_" ++ s)) ∧
      dfGetCol (buildDescriptors c10raw) ("combined_" ++ "hbond_1") =
        c10raw.rows.map (fun r =>
          Cell.str (astypeStr (rowGet r (sorted2 "x_hbond_1" "y_hbond_1").1) ++ "_" ++
                astypeStr (rowGet r (sorted2 "x_hbond_1" "y_hbond_1").2)))) :=
  ⟨by decide,
    (c3_buildDescriptors_grouping c10raw (by decide)).1,
    (c3_buildDescriptors_grouping c10raw (by decide)).2.1 "hbond_1" (by decide)
      "x_hbond_1" "y_hbond_1" (by decide)⟩

/-- C3 counterexample input: two columns sharing the suffix `hbond_11`,
outside the claimed `hbond_<i>, i in 1..10` universe. -/
def c3df : DataFrame :=
  DataFrame.mk [0] ["a_hbond_11", "b_hbond_11", "base_pair"]
    [[("a_hbond_11", Cell.str "X"), ("b_hbond_11", Cell.str "Y"),
      ("base_pair", Cell.str "G-U")]]

/-- C3 counterexample: the source groups by *any* suffix starting with
`"hbond"`, so the two `hbond_11` columns — outside the claim's
`hbond_<i>, i in 1..10` grouping universe — do produce a combined column
`combined_hbond_11`, which the claim as stated forbids. -/
theorem c3_range_counterexample :
    (buildDescriptors c3df).cols =
      ["a_hbond_11", "b_hbond_11", "base_pair", "combined_hbond_11"] ∧
    dfGetCol (buildDescriptors c3df) "combined_hbond_11" = [Cell.str "X_Y"] := by
  exact ⟨by decide, by decide⟩

/-!
## Claim C7 — missing values in atom/distance columns
-/

/-- C7 as amended: for a row with a missing value in the atom or the
distance column of a two-column suffix group, a combined descriptor *is*
synthesized for that row — `astype(str)` renders the missing value by its
flavor, `"None"` for a missing entry of an object/string (atom) column and
`"nan"` for a float (distance) `NaN` — and the rendered descriptor
therefore contains `"None"` or `"nan"` as a substring; the slot is then
matched by ordinary substring containment against this rendered
descriptor, not skipped. -/
theorem c7_null_rendered_nan (df : DataFrame) (suf c₁ c₂ : String) (k : Nat)
    (r : Row)
    (hnc : ∀ c ∈ df.cols, pyStartswith c "combined_" = false)
    (hsuf : suf ∈ hbondSuffixes df.cols)
    (hgr : suffixGroup df.cols suf = [c₁, c₂])
    (hrow : df.rows.get? k = some r)
    (hnull : rowGet r (sorted2 c₁ c₂).1 = Cell.pyNone ∨
             rowGet r (sorted2 c₁ c₂).1 = Cell.nan ∨
             rowGet r (sorted2 c₁ c₂).2 = Cell.pyNone ∨
             rowGet r (sorted2 c₁ c₂).2 = Cell.nan) :
    (dfGetCol (buildDescriptors df) ("combined_" ++ suf)).get? k =
      some (Cell.str (astypeStr (rowGet r (sorted2 c₁ c₂).1) ++ "_" ++
                  astypeStr (rowGet r (sorted2 c₁ c₂).2))) ∧
    (strContains (astypeStr (rowGet r (sorted2 c₁ c₂).1) ++ "_" ++
                  astypeStr (rowGet r (sorted2 c₁ c₂).2)) "None" = true ∨
     strContains (astypeStr (rowGet r (sorted2 c₁ c₂).1) ++ "_" ++
                  astypeStr (rowGet r (sorted2 c₁ c₂).2)) "nan" = true) := by
  obtain ⟨hcols, g, hrows, hgnc, hgproc⟩ := buildDescriptors_shape df hnc
  constructor
  · unfold dfGetCol
    rw [hrows, List.map_map, List.get?_map, hrow]
    show some (rowGet (g r) ("combined_" ++ suf)) = _
    exact congrArg some (hgproc suf hsuf c₁ c₂ hgr r)
  · rcases hnull with h | h | h | h
    · left
      rw [h, String.append_assoc]
      exact strContains_self_append "None" _
    · right
      rw [h, String.append_assoc]
      exact strContains_self_append "nan" _
    · left
      rw [h]
      exact strContains_append_self _ "None"
    · right
      rw [h]
      exact strContains_append_self _ "nan"

/-- C7 counterexample row: the atom cell of slot 1 is missing (Python
`None`, as `pd.read_parquet` materializes a missing entry of a string
column). -/
def c7row : Row :=
  [("base_pair", Cell.str "G-U"), ("x_hbond_1", Cell.pyNone),
   ("y_hbond_1", Cell.str "2.8")]

/-- C7 counterexample input frame with the missing atom value. -/
def c7df : DataFrame :=
  DataFrame.mk [0] ["base_pair", "x_hbond_1", "y_hbond_1"] [c7row]

/-- C7 second counterexample row: the distance cell of slot 1 is missing
(float `NaN`, as in a float column). -/
def c7rowNan : Row :=
  [("base_pair", Cell.str "G-U"), ("x_hbond_1", Cell.str "O6-N3"),
   ("y_hbond_1", Cell.nan)]

/-- C7 counterexample input frame with the missing distance value. -/
def c7dfNan : DataFrame :=
  DataFrame.mk [0] ["base_pair", "x_hbond_1", "y_hbond_1"] [c7rowNan]

theorem c7_null_rendered_nan_witness :
    ((dfGetCol (buildDescriptors c7df) ("combined_" ++ "hbond_1")).get? 0 =
      some (Cell.str (astypeStr (rowGet c7row (sorted2 "x_hbond_1" "y_hbond_1").1) ++
        "_" ++ astypeStr (rowGet c7row (sorted2 "x_hbond_1" "y_hbond_1").2))) ∧
    (strContains (astypeStr (rowGet c7row (sorted2 "x_hbond_1" "y_hbond_1").1) ++
        "_" ++ astypeStr (rowGet c7row (sorted2 "x_hbond_1" "y_hbond_1").2))
      "None" = true ∨
     strContains (astypeStr (rowGet c7row (sorted2 "x_hbond_1" "y_hbond_1").1) ++
        "_" ++ astypeStr (rowGet c7row (sorted2 "x_hbond_1" "y_hbond_1").2))
      "nan" = true)) ∧
    ((dfGetCol (buildDescriptors c7dfNan) ("combined_" ++ "hbond_1")).get? 0 =
      some (Cell.str (astypeStr (rowGet c7rowNan (sorted2 "x_hbond_1" "y_hbond_1").1) ++
        "_" ++ astypeStr (rowGet c7rowNan (sorted2 "x_hbond_1" "y_hbond_1").2))) ∧
    (strContains (astypeStr (rowGet c7rowNan (sorted2 "x_hbond_1" "y_hbond_1").1) ++
        "_" ++ astypeStr (rowGet c7rowNan (sorted2 "x_hbond_1" "y_hbond_1").2))
      "None" = true ∨
     strContains (astypeStr (rowGet c7rowNan (sorted2 "x_hbond_1" "y_hbond_1").1) ++
        "_" ++ astypeStr (rowGet c7rowNan (sorted2 "x_hbond_1" "y_hbond_1").2))
      "nan" = true)) :=
  ⟨c7_null_rendered_nan c7df "hbond_1" "x_hbond_1" "y_hbond_1" 0 c7row
      (by decide) (by decide) (by decide) (by decide) (Or.inl (by decide)),
   c7_null_rendered_nan c7dfNan "hbond_1" "x_hbond_1" "y_hbond_1" 0 c7rowNan
      (by decide) (by decide) (by decide) (by decide)
      (Or.inr (Or.inr (Or.inr (by decide))))⟩

/-- C7 counterexample: a combined descriptor *is* synthesized for a row
with a missing slot value, contradicting "no combined descriptor is
synthesized for that row's slot" — a missing atom cell (Python `None`)
yields `"None_2.8"` and a missing distance cell (float `NaN`) yields
`"O6-N3_nan"` — and the slot is not non-matching for every query term:
the terms `"None"` resp. `"nan"` match it. -/
theorem c7_null_excluded_counterexample :
    dfGetCol (buildDescriptors c7df) "combined_hbond_1" =
      [Cell.str "None_2.8"] ∧
    has_hbond (buildDescriptors c7df) "None" = [true] ∧
    dfGetCol (buildDescriptors c7dfNan) "combined_hbond_1" =
      [Cell.str "O6-N3_nan"] ∧
    has_hbond (buildDescriptors c7dfNan) "nan" = [true] := by
  exact ⟨by decide, by decide, by decide, by decide⟩
